import Mathlib

/-!
Verification of the call-graph extraction pipeline of `py-flow-trace`
(`src/main.py`): a shallow embedding of the AST visitor
(`EventAnalysisVisitor`), the aggregator (`CallInfo`), module-path
derivation (`get_module_path`) and the per-run driver
(`analyze_file` / `walk_and_analyze`), together with theorems about
scope tracking, import resolution, call recording and error behaviour.

Modelling conventions:
* Python strings are `String`; `os.path.sep` is `'/'`.
* Python's insertion-ordered `dict` is an association list
  (`List (String × α)`); assignment is `updateAssoc` (replace in place
  when the key exists, append otherwise).
* `collections.defaultdict`-backed `CallInfo.call_relations` is a nested
  association list `List (String × List (String × Nat))`; an entry exists
  exactly when the Python dict holds the key.
* A source file is a path together with `Option` of its parsed body:
  `none` models text that `ast.parse` rejects with a `SyntaxError`
  carrying the file path (modelled as `Except.error path`).
* `ast.NodeVisitor.generic_visit` visits child nodes in field order; the
  embedded traversal follows that order for the node shapes it covers.
-/

/-- Association-list lookup, the semantics of Python `d[k]` /
`k in d` on an insertion-ordered dict. -/
def lookupAssoc {α : Type} : List (String × α) → String → Option α
  | [], _ => none
  | (k, v) :: rest, key => if k = key then some v else lookupAssoc rest key

/-- Association-list assignment `d[k] = v` on an insertion-ordered dict:
replace the value in place when the key exists, append otherwise. -/
def updateAssoc {α : Type} : List (String × α) → String → α → List (String × α)
  | [], k, v => [(k, v)]
  | (k0, v0) :: rest, k, v =>
      if k0 = k then (k0, v) :: rest else (k0, v0) :: updateAssoc rest k v

/-- The keys of an association list, in insertion order. -/
def keysOf {α : Type} (t : List (String × α)) : List String := t.map Prod.fst

/-- `str.split(".")` on a character list: cut at every `'.'`,
never dropping empty pieces. -/
def splitDotAux : List Char → List Char → List String
  | [], acc => [String.mk acc.reverse]
  | c :: rest, acc =>
      if c = '.' then String.mk acc.reverse :: splitDotAux rest []
      else splitDotAux rest (c :: acc)

/-- `callee.split(".")` from `visit_Call`. -/
def splitDot (s : String) : List String := splitDotAux s.data []

/-- `".".join(parts)` from `visit_Call`. -/
def joinDot : List String → String
  | [] => ""
  | [x] => x
  | x :: rest => x ++ "." ++ joinDot rest

/-- Scan a reversed path: the characters up to the last `'.'` of the last
component, if that component has an extension (helper for `splitextFst`). -/
def dropExtRev : List Char → Option (List Char)
  | [] => none
  | c :: rest => if c = '.' then some rest else if c = '/' then none else dropExtRev rest

/-- First component of `os.path.splitext(p)`: the path with its extension
removed.  Modelled for paths whose last component carries a regular
extension (no special-casing of dotfiles, which never reach
`get_module_path`: the walker only yields `*.py` names). -/
def splitextFst (p : String) : String :=
  match dropExtRev p.data.reverse with
  | some rest => String.mk rest.reverse
  | none => p

/-- `os.path.relpath(p, root)`: modelled for the cases the program
exercises — a root of `"."` leaves the path unchanged, a proper root
prefix is stripped. -/
def relpathTo (root p : String) : String :=
  if root = "." then p
  else if p.startsWith (root ++ "/") then (p.drop (root.length + 1)) else p

/-- `path.replace(os.path.sep, ".")` with `os.path.sep = '/'`. -/
def sepToDot (p : String) : String :=
  String.mk (p.data.map (fun c => if c = '/' then '.' else c))

/-- `get_module_path(file_path)` from `src/main.py`: strip the extension,
make the path relative to the configured root (`settings["path"]`, here an
explicit argument), and replace path separators by dots. -/
def get_module_path (root file_path : String) : String :=
  sepToDot (relpathTo root (splitextFst file_path))

/-- `dir(builtins)` of the host Python: the names `visit_Call` filters out
(`self.builtin_modules`). -/
def builtin_modules : List String :=
  ["ArithmeticError", "AssertionError", "AttributeError", "BaseException",
   "BaseExceptionGroup", "BlockingIOError", "BrokenPipeError", "BufferError",
   "BytesWarning", "ChildProcessError", "ConnectionAbortedError",
   "ConnectionError", "ConnectionRefusedError", "ConnectionResetError",
   "DeprecationWarning", "EOFError", "Ellipsis", "EncodingWarning",
   "EnvironmentError", "Exception", "ExceptionGroup", "False",
   "FileExistsError", "FileNotFoundError", "FloatingPointError",
   "FutureWarning", "GeneratorExit", "IOError", "ImportError",
   "ImportWarning", "IndentationError", "IndexError", "InterruptedError",
   "IsADirectoryError", "KeyError", "KeyboardInterrupt", "LookupError",
   "MemoryError", "ModuleNotFoundError", "NameError", "None",
   "NotADirectoryError", "NotImplemented", "NotImplementedError", "OSError",
   "OverflowError", "PendingDeprecationWarning", "PermissionError",
   "ProcessLookupError", "RecursionError", "ReferenceError",
   "ResourceWarning", "RuntimeError", "RuntimeWarning",
   "StopAsyncIteration", "StopIteration", "SyntaxError", "SyntaxWarning",
   "SystemError", "SystemExit", "TabError", "TimeoutError", "True",
   "TypeError", "UnboundLocalError", "UnicodeDecodeError",
   "UnicodeEncodeError", "UnicodeError", "UnicodeTranslateError",
   "UnicodeWarning", "UserWarning", "ValueError", "Warning",
   "ZeroDivisionError", "__build_class__", "__debug__", "__doc__",
   "__import__", "__loader__", "__name__", "__package__", "__spec__",
   "abs", "aiter", "all", "anext", "any", "ascii", "bin", "bool",
   "breakpoint", "bytearray", "bytes", "callable", "chr", "classmethod",
   "compile", "complex", "copyright", "credits", "delattr", "dict", "dir",
   "divmod", "enumerate", "eval", "exec", "exit", "filter", "float",
   "format", "frozenset", "getattr", "globals", "hasattr", "hash", "help",
   "hex", "id", "input", "int", "isinstance", "issubclass", "iter", "len",
   "license", "list", "locals", "map", "max", "memoryview", "min", "next",
   "object", "oct", "open", "ord", "pow", "print", "property", "quit",
   "range", "repr", "reversed", "round", "set", "setattr", "slice",
   "sorted", "staticmethod", "str", "sum", "super", "tuple", "type",
   "vars", "zip"]

/-- A Python expression, restricted to the shapes `get_callee` and the
generic traversal distinguish. -/
inductive Expr where
  | name (id : String)
  | attribute (value : Expr) (attr : String)
  | subscript (value : Expr) (index : Expr)
  | call (func : Expr) (args : List Expr)
  | const


/-- An `ast.alias` node: `name` is the declared name, `asname` the
optional local rename.  `src/main.py` reads only `alias.name`. -/
structure Alias where
  name : String
  asname : Option String


/-- A Python statement, restricted to the node kinds
`EventAnalysisVisitor` overrides (plus bare expression statements, which
carry call expressions to the generic traversal). -/
inductive Stmt where
  | importStmt (names : List Alias)
  | importFromStmt (module : String) (names : List Alias)
  | classDef (name : String) (body : List Stmt)
  | funcDef (name : String) (body : List Stmt)
  | exprStmt (e : Expr)


/-- The mutable fields of `EventAnalysisVisitor` that the traversal
updates: `current_class`, `current_method` and `self.imports`.
(Python identifiers are nonempty, so truthiness of the tracked names
coincides with `Option.isSome`.) -/
structure VisitorState where
  current_class : Option String
  current_method : Option String
  importsMap : List (String × String)


/-- `EventAnalysisVisitor.__init__`: no class, no method, empty table. -/
def initialState : VisitorState := ⟨none, none, []⟩

/-- `get_callee(node)` on the call's `func` child: `x.y(...)` yields
`"x.y"`, `f(...)` yields `"f"`, anything else yields no label. -/
def get_callee : Expr → Option String
  | .attribute (.name vid) attr => some (vid ++ "." ++ attr)
  | .name fid => some fid
  | _ => none

/-- The two callee shapes `get_callee` matches: an attribute access on
a simple identifier, or a direct simple identifier. -/
def simpleCalleeShape : Expr → Bool
  | .attribute (.name _) _ => true
  | .name _ => true
  | _ => false

/-- The caller identity `visit_Call` derives from the current scope. -/
def callerOf (mp : String) (s : VisitorState) : String :=
  match s.current_class, s.current_method with
  | some c, some m => mp ++ "." ++ c ++ "." ++ m
  | some c, none => mp ++ "." ++ c
  | none, _ => mp

/-- The recording step of `visit_Call`: the `add_call` invocations (as
(caller, callee) pairs) the node itself contributes.  A labelled,
non-built-in call is recorded only when its leading segment is found in
`self.imports`; the segment is then replaced by the bound name. -/
def callEvent (mp : String) (s : VisitorState) (func : Expr) : List (String × String) :=
  match get_callee func with
  | none => []
  | some callee =>
      if builtin_modules.contains callee then []
      else
        let caller := callerOf mp s
        let parts := splitDot callee
        match lookupAssoc s.importsMap (parts.headD "") with
        | some full => [(caller, joinDot (full :: parts.tail))]
        | none => []

mutual
/-- Traversal of an expression: `visit_Call` records its own event and
then `generic_visit` descends into `func` and `args`; other expression
kinds only descend. -/
def visitExpr (mp : String) (s : VisitorState) : Expr → List (String × String)
  | .name _ => []
  | .const => []
  | .attribute v _ => visitExpr mp s v
  | .subscript v ix => visitExpr mp s v ++ visitExpr mp s ix
  | .call f args => callEvent mp s f ++ visitExpr mp s f ++ visitExprList mp s args

/-- Traversal of a list of child expressions, left to right. -/
def visitExprList (mp : String) (s : VisitorState) : List Expr → List (String × String)
  | [] => []
  | e :: es => visitExpr mp s e ++ visitExprList mp s es
end

mutual
/-- Traversal of one statement: returns the visitor state after the
statement together with the recorded (caller, callee) pairs, in
traversal order, mirroring `visit_Import`, `visit_ImportFrom`,
`visit_ClassDef`, `visit_FunctionDef` and the generic descent. -/
def visitStmt (mp : String) (s : VisitorState) : Stmt → VisitorState × List (String × String)
  | .importStmt names =>
      ({ s with importsMap :=
          names.foldl (fun t a => updateAssoc t a.name a.name) s.importsMap }, [])
  | .importFromStmt module names =>
      ({ s with importsMap :=
          names.foldl (fun t a => updateAssoc t a.name (module ++ "." ++ a.name)) s.importsMap }, [])
  | .classDef nm body =>
      let r := visitStmtList mp { s with current_class := some nm } body
      ({ r.1 with current_class := none, current_method := none }, r.2)
  | .funcDef nm body =>
      let s1 := if s.current_class.isSome then { s with current_method := some nm } else s
      let r := visitStmtList mp s1 body
      ({ r.1 with current_method := none }, r.2)
  | .exprStmt e => (s, visitExpr mp s e)

/-- Traversal of a statement list, threading the visitor state. -/
def visitStmtList (mp : String) (s : VisitorState) : List Stmt → VisitorState × List (String × String)
  | [] => (s, [])
  | st :: rest =>
      let r := visitStmt mp s st
      let r2 := visitStmtList mp r.1 rest
      (r2.1, r.2 ++ r2.2)
end

/-- The `add_call` invocations one file's traversal performs, in order:
a fresh visitor over the module body. -/
def moduleEvents (root path : String) (m : List Stmt) : List (String × String) :=
  (visitStmtList (get_module_path root path) initialState m).2

/-- `CallInfo.call_relations`: caller → (callee → count), as nested
insertion-ordered association lists. -/
abbrev CallInfo := List (String × List (String × Nat))

/-- Increment of the inner `defaultdict(int)`: `d[callee] += 1`. -/
def bumpCount : List (String × Nat) → String → List (String × Nat)
  | [], callee => [(callee, 1)]
  | (k, n) :: rest, callee =>
      if k = callee then (k, n + 1) :: rest else (k, n) :: bumpCount rest callee

/-- `CallInfo.add_call(caller, callee)`:
`self.call_relations[caller][callee] += 1` on nested defaultdicts. -/
def add_call : CallInfo → String → String → CallInfo
  | [], caller, callee => [(caller, [(callee, 1)])]
  | (k, inner) :: rest, caller, callee =>
      if k = caller then (k, bumpCount inner callee) :: rest
      else (k, inner) :: add_call rest caller callee

/-- The stored count for a (caller, callee) pair, 0 when absent. -/
def getCount (ci : CallInfo) (caller callee : String) : Nat :=
  match lookupAssoc ci caller with
  | none => 0
  | some inner => (lookupAssoc inner callee).getD 0

/-- Whether both the outer entry for `caller` and its inner entry for
`callee` are present in the graph. -/
def pairMemB (ci : CallInfo) (caller callee : String) : Bool :=
  match lookupAssoc ci caller with
  | none => false
  | some inner => (lookupAssoc inner callee).isSome

/-- The graph as (caller, callee, count) triples, in insertion order. -/
def toTriples (ci : CallInfo) : List (String × String × Nat) :=
  ci.foldr (fun p acc => (p.2.map (fun q => (p.1, q.1, q.2))) ++ acc) []

/-- One input file: its path and `some` parsed body, or `none` when
`ast.parse` rejects the text with a `SyntaxError`. -/
structure PyFile where
  path : String
  parsed : Option (List Stmt)


/-- `analyze_file(file_path, call_info)`: parse (failure propagates,
carrying the file path) and run the visitor, folding every `add_call`
into the accumulated graph. -/
def analyze_file (root : String) (ci : CallInfo) (f : PyFile) : Except String CallInfo :=
  match f.parsed with
  | none => Except.error f.path
  | some m =>
      Except.ok ((moduleEvents root f.path m).foldl (fun a p => add_call a p.1 p.2) ci)

/-- The loop of `walk_and_analyze` over the discovered file list: each
file is analyzed in turn into the shared `CallInfo`; an uncaught parse
error aborts the whole loop. -/
def walk_and_analyze (root : String) : List PyFile → CallInfo → Except String CallInfo
  | [], ci => Except.ok ci
  | f :: rest, ci =>
      match analyze_file root ci f with
      | Except.error e => Except.error e
      | Except.ok ci2 => walk_and_analyze root rest ci2

/-- A whole run: `walk_and_analyze` starting from the fresh `CallInfo()`. -/
def run_extraction (root : String) (files : List PyFile) : Except String CallInfo :=
  walk_and_analyze root files []

/-- All `add_call` invocations of a run, in order (files that fail to
parse contribute nothing; a successful run has none such). -/
def runEvents (root : String) : List PyFile → List (String × String)
  | [] => []
  | f :: rest =>
      (match f.parsed with
       | none => []
       | some m => moduleEvents root f.path m) ++ runEvents root rest

/-- The number of syntactically matched, resolvable call sites across the
run that map to the given caller identity and resolved callee identity. -/
def countCallSites (root : String) (files : List PyFile) (caller callee : String) : Nat :=
  (runEvents root files).count (caller, callee)

/-! ### Association-list and aggregator lemmas -/

theorem keysOf_cons {α : Type} (k : String) (v : α) (t : List (String × α)) :
    keysOf ((k, v) :: t) = k :: keysOf t := rfl

theorem lookupAssoc_updateAssoc {α : Type} (t : List (String × α)) (k : String) (v : α)
    (k' : String) :
    lookupAssoc (updateAssoc t k v) k' = if k' = k then some v else lookupAssoc t k' := by
  induction t with
  | nil =>
      by_cases h : k = k'
      · subst h
        simp [updateAssoc, lookupAssoc]
      · simp [updateAssoc, lookupAssoc, h, Ne.symm h]
  | cons hd tl ih =>
      obtain ⟨k0, v0⟩ := hd
      by_cases h0 : k0 = k
      · subst h0
        by_cases h1 : k0 = k'
        · subst h1
          simp [updateAssoc, lookupAssoc]
        · simp [updateAssoc, lookupAssoc, h1, Ne.symm h1]
      · by_cases h1 : k0 = k'
        · subst h1
          simp [updateAssoc, lookupAssoc, h0, Ne.symm h0]
        · simp [updateAssoc, lookupAssoc, h0, h1, ih]

theorem mem_keysOf_updateAssoc {α : Type} (t : List (String × α)) (k : String) (v : α)
    (x : String) :
    x ∈ keysOf (updateAssoc t k v) ↔ x ∈ keysOf t ∨ x = k := by
  induction t with
  | nil => simp [updateAssoc, keysOf]
  | cons hd tl ih =>
      obtain ⟨k0, v0⟩ := hd
      by_cases h0 : k0 = k
      · subst h0
        have hup : updateAssoc ((k0, v0) :: tl) k0 v = (k0, v) :: tl := by
          simp [updateAssoc]
        rw [hup, keysOf_cons, List.mem_cons, keysOf_cons, List.mem_cons]
        tauto
      · have hup : updateAssoc ((k0, v0) :: tl) k v = (k0, v0) :: updateAssoc tl k v := by
          simp [updateAssoc, h0]
        rw [hup, keysOf_cons, List.mem_cons, keysOf_cons, List.mem_cons, ih]
        tauto

theorem nodup_keysOf_updateAssoc {α : Type} (t : List (String × α)) (k : String) (v : α)
    (h : (keysOf t).Nodup) : (keysOf (updateAssoc t k v)).Nodup := by
  induction t with
  | nil => simp [updateAssoc, keysOf]
  | cons hd tl ih =>
      obtain ⟨k0, v0⟩ := hd
      rw [keysOf_cons, List.nodup_cons] at h
      by_cases h0 : k0 = k
      · subst h0
        have hup : updateAssoc ((k0, v0) :: tl) k0 v = (k0, v) :: tl := by
          simp [updateAssoc]
        rw [hup, keysOf_cons, List.nodup_cons]
        exact h
      · have hup : updateAssoc ((k0, v0) :: tl) k v = (k0, v0) :: updateAssoc tl k v := by
          simp [updateAssoc, h0]
        rw [hup, keysOf_cons, List.nodup_cons]
        refine ⟨?_, ih h.2⟩
        rw [mem_keysOf_updateAssoc]
        push_neg
        exact ⟨h.1, h0⟩

theorem nodup_keysOf_foldl_updateAssoc (names : List Alias)
    (g : Alias → String) (t : List (String × String)) (h : (keysOf t).Nodup) :
    (keysOf (names.foldl (fun t a => updateAssoc t a.name (g a)) t)).Nodup := by
  induction names generalizing t with
  | nil => simpa using h
  | cons a rest ih =>
      simpa using ih (updateAssoc t a.name (g a)) (nodup_keysOf_updateAssoc _ _ _ h)

mutual
theorem nodup_imports_visitStmt (st : Stmt) (mp : String) (s : VisitorState)
    (h : (keysOf s.importsMap).Nodup) :
    (keysOf (visitStmt mp s st).1.importsMap).Nodup :=
  match st with
  | .importStmt names => by
      simpa [visitStmt] using nodup_keysOf_foldl_updateAssoc names (fun a => a.name) _ h
  | .importFromStmt module names => by
      simpa [visitStmt] using
        nodup_keysOf_foldl_updateAssoc names (fun a => module ++ "." ++ a.name) _ h
  | .classDef nm body => by
      have := nodup_imports_visitStmtList body mp { s with current_class := some nm } h
      simpa [visitStmt] using this
  | .funcDef nm body => by
      by_cases hc : s.current_class.isSome
      · have := nodup_imports_visitStmtList body mp { s with current_method := some nm } h
        simpa [visitStmt, hc] using this
      · have := nodup_imports_visitStmtList body mp s h
        simpa [visitStmt, hc] using this
  | .exprStmt e => by simpa [visitStmt] using h

theorem nodup_imports_visitStmtList (sts : List Stmt) (mp : String) (s : VisitorState)
    (h : (keysOf s.importsMap).Nodup) :
    (keysOf (visitStmtList mp s sts).1.importsMap).Nodup :=
  match sts with
  | [] => by simpa [visitStmtList] using h
  | st :: rest => by
      have := nodup_imports_visitStmtList rest mp (visitStmt mp s st).1
          (nodup_imports_visitStmt st mp s h)
      simpa [visitStmtList] using this
end

theorem lookupAssoc_bumpCount_self (inner : List (String × Nat)) (e : String) :
    lookupAssoc (bumpCount inner e) e = some ((lookupAssoc inner e).getD 0 + 1) := by
  induction inner with
  | nil => simp [bumpCount, lookupAssoc]
  | cons hd tl ih =>
      obtain ⟨k, n⟩ := hd
      by_cases h : k = e <;> simp [bumpCount, lookupAssoc, h, ih]

theorem lookupAssoc_bumpCount_ne (inner : List (String × Nat)) (e e' : String)
    (h : e' ≠ e) : lookupAssoc (bumpCount inner e) e' = lookupAssoc inner e' := by
  induction inner with
  | nil => simp [bumpCount, lookupAssoc, Ne.symm h]
  | cons hd tl ih =>
      obtain ⟨k, n⟩ := hd
      by_cases hk : k = e
      · subst hk
        simp [bumpCount, lookupAssoc, Ne.symm h]
      · by_cases hk' : k = e'
        · subst hk'
          simp [bumpCount, lookupAssoc, hk]
        · simp [bumpCount, lookupAssoc, hk, hk', ih]

theorem lookupAssoc_add_call_self (ci : CallInfo) (c e : String) :
    lookupAssoc (add_call ci c e) c =
      some (bumpCount ((lookupAssoc ci c).getD []) e) := by
  induction ci with
  | nil => simp [add_call, lookupAssoc, bumpCount]
  | cons hd tl ih =>
      obtain ⟨k, inner⟩ := hd
      by_cases hk : k = c
      · subst hk
        simp [add_call, lookupAssoc]
      · simp [add_call, lookupAssoc, hk, ih]

theorem lookupAssoc_add_call_ne (ci : CallInfo) (c e c' : String) (h : c' ≠ c) :
    lookupAssoc (add_call ci c e) c' = lookupAssoc ci c' := by
  induction ci with
  | nil => simp [add_call, lookupAssoc, Ne.symm h]
  | cons hd tl ih =>
      obtain ⟨k, inner⟩ := hd
      by_cases hk : k = c
      · subst hk
        simp [add_call, lookupAssoc, Ne.symm h]
      · by_cases hk' : k = c'
        · subst hk'
          simp [add_call, lookupAssoc, hk]
        · simp [add_call, lookupAssoc, hk, hk', ih]

theorem getCount_add_call_self (ci : CallInfo) (c e : String) :
    getCount (add_call ci c e) c e = getCount ci c e + 1 := by
  simp only [getCount, lookupAssoc_add_call_self]
  cases hcl : lookupAssoc ci c with
  | none => simp [bumpCount, lookupAssoc]
  | some inner => simp [lookupAssoc_bumpCount_self]

theorem getCount_add_call_ne (ci : CallInfo) (c e c' e' : String)
    (h : (c', e') ≠ (c, e)) : getCount (add_call ci c e) c' e' = getCount ci c' e' := by
  by_cases hc : c' = c
  · subst hc
    have he : e' ≠ e := by
      intro h2
      exact h (by rw [h2])
    simp only [getCount, lookupAssoc_add_call_self]
    cases hcl : lookupAssoc ci c' with
    | none => simp [bumpCount, lookupAssoc, Ne.symm he]
    | some inner => simp [lookupAssoc_bumpCount_ne _ _ _ he]
  · simp only [getCount, lookupAssoc_add_call_ne ci c e c' hc]

theorem pairMemB_add_call_self (ci : CallInfo) (c e : String) :
    pairMemB (add_call ci c e) c e = true := by
  simp only [pairMemB, lookupAssoc_add_call_self]
  simp [lookupAssoc_bumpCount_self]

theorem pairMemB_add_call_ne (ci : CallInfo) (c e c' e' : String)
    (h : (c', e') ≠ (c, e)) : pairMemB (add_call ci c e) c' e' = pairMemB ci c' e' := by
  by_cases hc : c' = c
  · subst hc
    have he : e' ≠ e := by
      intro h2
      exact h (by rw [h2])
    simp only [pairMemB, lookupAssoc_add_call_self]
    cases hcl : lookupAssoc ci c' with
    | none => simp [bumpCount, lookupAssoc, Ne.symm he]
    | some inner => simp [lookupAssoc_bumpCount_ne _ _ _ he]
  · simp only [pairMemB, lookupAssoc_add_call_ne ci c e c' hc]

theorem getCount_foldl_add_call (evs : List (String × String)) (ci : CallInfo)
    (c e : String) :
    getCount (evs.foldl (fun a p => add_call a p.1 p.2) ci) c e
      = getCount ci c e + evs.count (c, e) := by
  induction evs generalizing ci with
  | nil => simp
  | cons p rest ih =>
      obtain ⟨pc, pe⟩ := p
      rw [List.foldl_cons, ih, List.count_cons]
      by_cases hp : (pc, pe) = (c, e)
      · rw [Prod.mk.injEq] at hp
        obtain ⟨rfl, rfl⟩ := hp
        rw [getCount_add_call_self]
        simp
        omega
      · rw [getCount_add_call_ne ci pc pe c e (Ne.symm hp)]
        simp [Ne.symm hp]
        intro h1 h2
        exact hp (by rw [h1, h2])

theorem pairMemB_foldl_add_call (evs : List (String × String)) (ci : CallInfo)
    (c e : String) :
    pairMemB (evs.foldl (fun a p => add_call a p.1 p.2) ci) c e
      = (pairMemB ci c e || evs.contains (c, e)) := by
  induction evs generalizing ci with
  | nil => simp
  | cons p rest ih =>
      obtain ⟨pc, pe⟩ := p
      rw [List.foldl_cons, ih]
      by_cases hp : (pc, pe) = (c, e)
      · rw [Prod.mk.injEq] at hp
        obtain ⟨rfl, rfl⟩ := hp
        simp [pairMemB_add_call_self]
      · rw [pairMemB_add_call_ne ci pc pe c e (Ne.symm hp)]
        simp [List.contains_cons, Ne.symm hp]

theorem walk_and_analyze_ok (root : String) (files : List PyFile) (ci ci' : CallInfo)
    (h : walk_and_analyze root files ci = Except.ok ci') :
    ci' = (runEvents root files).foldl (fun a p => add_call a p.1 p.2) ci := by
  induction files generalizing ci with
  | nil =>
      simp [walk_and_analyze] at h
      simp [runEvents, h]
  | cons f rest ih =>
      cases hp : f.parsed with
      | none => simp [walk_and_analyze, analyze_file, hp] at h
      | some m =>
          simp only [walk_and_analyze, analyze_file, hp] at h
          have := ih _ h
          simp only [runEvents, hp, List.foldl_append]
          exact this

theorem walk_and_analyze_err (root : String) (files : List PyFile) (ci : CallInfo)
    (h : ∃ f ∈ files, f.parsed = none) :
    ∃ f ∈ files, f.parsed = none ∧
      walk_and_analyze root files ci = Except.error f.path := by
  induction files generalizing ci with
  | nil => simp at h
  | cons f rest ih =>
      cases hp : f.parsed with
      | none =>
          exact ⟨f, List.mem_cons_self f rest, hp,
            by simp [walk_and_analyze, analyze_file, hp]⟩
      | some m =>
          have hrest : ∃ g ∈ rest, g.parsed = none := by
            rcases h with ⟨g, hg, hgp⟩
            rcases List.mem_cons.mp hg with rfl | hg2
            · rw [hp] at hgp
              cases hgp
            · exact ⟨g, hg2, hgp⟩
          obtain ⟨g, hg, hgp, hw⟩ :=
            ih ((moduleEvents root f.path m).foldl (fun a p => add_call a p.1 p.2) ci) hrest
          refine ⟨g, List.mem_cons_of_mem f hg, hgp, ?_⟩
          simp only [walk_and_analyze, analyze_file, hp]
          exact hw

theorem getCount_eq_zero_of_not_mem (ci : CallInfo) (c e : String)
    (h : pairMemB ci c e = false) : getCount ci c e = 0 := by
  unfold pairMemB at h
  unfold getCount
  cases hcl : lookupAssoc ci c with
  | none => rfl
  | some inner =>
      rw [hcl] at h
      cases hlk : lookupAssoc inner e with
      | none => simp [hlk]
      | some v => simp [hlk] at h

/-! ### Claim theorems -/

/-- C1: for every run over a fixed file set, the stored count of each
recorded (caller, callee) pair equals the number of syntactically
matched, resolvable call sites of the run mapping to that pair; a pair
is stored exactly when such a call site exists, every stored count is
positive, and `add_call` creates an absent entry with count 1 and
otherwise increments the stored count by exactly 1. -/
theorem C1_count_invariant :
    (∀ root files ci caller callee,
      run_extraction root files = Except.ok ci →
        getCount ci caller callee = countCallSites root files caller callee
        ∧ (pairMemB ci caller callee = true ↔ (caller, callee) ∈ runEvents root files)
        ∧ (pairMemB ci caller callee = true → 0 < getCount ci caller callee))
    ∧ (∀ ci caller callee,
        (pairMemB ci caller callee = false →
          pairMemB (add_call ci caller callee) caller callee = true
          ∧ getCount (add_call ci caller callee) caller callee = 1)
        ∧ getCount (add_call ci caller callee) caller callee
            = getCount ci caller callee + 1) := by
  constructor
  · intro root files ci caller callee hok
    have hci := walk_and_analyze_ok root files [] ci hok
    subst hci
    have hcount := getCount_foldl_add_call (runEvents root files) [] caller callee
    have hmem := pairMemB_foldl_add_call (runEvents root files) [] caller callee
    rw [show getCount [] caller callee = 0 from rfl] at hcount
    rw [show pairMemB [] caller callee = false from rfl] at hmem
    simp only [Nat.zero_add, Bool.false_or] at hcount hmem
    refine ⟨hcount, ?_, ?_⟩
    · rw [hmem]
      exact List.elem_iff
    · intro hm
      rw [hcount, List.count_pos_iff]
      have hc : (runEvents root files).contains (caller, callee) = true := by
        rw [← hmem]
        exact hm
      exact List.elem_iff.mp hc
  · intro ci caller callee
    refine ⟨fun habs => ⟨pairMemB_add_call_self ci caller callee, ?_⟩,
      getCount_add_call_self ci caller callee⟩
    rw [getCount_add_call_self, getCount_eq_zero_of_not_mem ci caller callee habs]

/-- Witness for C1: a concrete one-file run with one resolvable call
site; its stored count is 1 and equals the call-site count, and a fresh
`add_call` on the empty graph creates the entry with count 1. -/
theorem C1_count_invariant_witness :
    getCount [("pkg.mod.C.run", [("pkg.item.method", 1)])] "pkg.mod.C.run" "pkg.item.method"
      = countCallSites "." [⟨"pkg/mod.py", some
          [Stmt.importFromStmt "pkg" [⟨"item", none⟩],
           Stmt.classDef "C" [Stmt.funcDef "run"
             [Stmt.exprStmt (Expr.call (Expr.attribute (Expr.name "item") "method") [])]]]⟩]
          "pkg.mod.C.run" "pkg.item.method"
    ∧ pairMemB (add_call [] "a" "b") "a" "b" = true
    ∧ getCount (add_call [] "a" "b") "a" "b" = 1 := by
  have h := C1_count_invariant.1 "." [⟨"pkg/mod.py", some
      [Stmt.importFromStmt "pkg" [⟨"item", none⟩],
       Stmt.classDef "C" [Stmt.funcDef "run"
         [Stmt.exprStmt (Expr.call (Expr.attribute (Expr.name "item") "method") [])]]]⟩]
      [("pkg.mod.C.run", [("pkg.item.method", 1)])] "pkg.mod.C.run" "pkg.item.method" rfl
  exact ⟨h.1, ((C1_count_invariant.2 [] "a" "b").1 rfl).1,
    ((C1_count_invariant.2 [] "a" "b").1 rfl).2⟩

/-- C2 counterexample: a file whose only statement is the dotted call
`item.method()` with an empty import table.  The claim says the
unqualified label `item.method` is still recorded against the module
caller; the run in fact produces an empty graph — the call is dropped,
because `add_call` executes only inside the import-table-hit branch. -/
theorem C2_counterexample :
    run_extraction "." [⟨"pkg/mod.py", some
      [Stmt.exprStmt (Expr.call (Expr.attribute (Expr.name "item") "method") [])]⟩]
      = Except.ok []
    ∧ pairMemB [] "pkg.mod" "item.method" = false := ⟨rfl, rfl⟩

/-- C2 (amended): a labelled call whose leading identifier segment is
absent from the current file's import table is discarded — never
recorded — whether or not the label contains a dot; only the call's
children are still traversed. -/
theorem C2_amended_unresolved_calls_dropped (mp : String) (s : VisitorState)
    (func : Expr) (l : String) (hl : get_callee func = some l)
    (habs : lookupAssoc s.importsMap ((splitDot l).headD "") = none) :
    callEvent mp s func = [] ∧
    ∀ args, visitExpr mp s (Expr.call func args)
      = visitExpr mp s func ++ visitExprList mp s args := by
  have hev : callEvent mp s func = [] := by
    have habs2 : lookupAssoc s.importsMap ((splitDot l).head?.getD "") = none := by
      simpa using habs
    simp [callEvent, hl, habs2]
  exact ⟨hev, fun args => by simp [visitExpr, hev]⟩

/-- Witness for C2's amended theorem: the dotted label `item.method`
with an empty import table yields no recorded call. -/
theorem C2_amended_witness :
    get_callee (Expr.attribute (Expr.name "item") "method") = some "item.method"
    ∧ lookupAssoc initialState.importsMap ((splitDot "item.method").headD "") = none
    ∧ callEvent "pkg.mod" initialState (Expr.attribute (Expr.name "item") "method") = [] :=
  ⟨rfl, rfl,
    (C2_amended_unresolved_calls_dropped "pkg.mod" initialState
      (Expr.attribute (Expr.name "item") "method") "item.method" rfl rfl).1⟩

/-- C3: for the file `pkg/mod.py` with root `.` containing
`from pkg import item` and a call `item.method()` inside method `run` of
class `C`, the run records exactly the pair with caller
`pkg.mod.C.run` and callee `pkg.item.method`, with count 1. -/
theorem C3_import_from_resolution :
    run_extraction "." [⟨"pkg/mod.py", some
      [Stmt.importFromStmt "pkg" [⟨"item", none⟩],
       Stmt.classDef "C" [Stmt.funcDef "run"
         [Stmt.exprStmt (Expr.call (Expr.attribute (Expr.name "item") "method") [])]]]⟩]
      = Except.ok [("pkg.mod.C.run", [("pkg.item.method", 1)])] := rfl

/-- C4: a file list containing an unparsable file makes the whole run
fail with a parse error carrying a failing file's path; no graph is
returned for any file. -/
theorem C4_parse_error_fatal (root : String) (files : List PyFile)
    (h : ∃ f ∈ files, f.parsed = none) :
    (∃ f ∈ files, f.parsed = none ∧ run_extraction root files = Except.error f.path)
    ∧ ∀ ci, run_extraction root files ≠ Except.ok ci := by
  obtain ⟨f, hf, hfp, hw⟩ := walk_and_analyze_err root files [] h
  have hrun : run_extraction root files = Except.error f.path := hw
  refine ⟨⟨f, hf, hfp, hrun⟩, ?_⟩
  intro ci hok
  rw [hrun] at hok
  cases hok

/-- Witness for C4: a malformed file next to a well-formed one aborts
the run with the malformed file's path. -/
theorem C4_witness :
    ((⟨"bad.py", none⟩ : PyFile).parsed = none)
    ∧ (∃ f ∈ [(⟨"bad.py", none⟩ : PyFile), ⟨"good.py", some []⟩], f.parsed = none ∧
        run_extraction "." [(⟨"bad.py", none⟩ : PyFile), ⟨"good.py", some []⟩]
          = Except.error f.path) := by
  have h : ∃ f ∈ [(⟨"bad.py", none⟩ : PyFile), ⟨"good.py", some []⟩], f.parsed = none :=
    ⟨⟨"bad.py", none⟩, by simp, rfl⟩
  exact ⟨rfl, (C4_parse_error_fatal "." _ h).1⟩

/-- C5 counterexample: `m.py` imports `helper`, then class `Outer`
contains a nested class `Inner` followed by a call `helper()` in the
outer class body.  The claim says the caller identity is `m.Outer`
(previous type restored); the run records the pair under caller `m`,
and no entry for `m.Outer` exists, because `visit_ClassDef` sets
`current_class` to `None` rather than restoring `Outer`. -/
theorem C5_counterexample :
    run_extraction "." [⟨"m.py", some
      [Stmt.importStmt [⟨"helper", none⟩],
       Stmt.classDef "Outer"
         [Stmt.classDef "Inner" [],
          Stmt.exprStmt (Expr.call (Expr.name "helper") [])]]⟩]
      = Except.ok [("m", [("helper", 1)])]
    ∧ pairMemB [("m", [("helper", 1)])] "m.Outer" "helper" = false := ⟨rfl, rfl⟩

/-- C5 (amended): when a type/class declaration's body traversal
completes, the scope tracker clears the current type and the function
scope to `none` — it does not restore the previously enclosing type —
so a call site in the outer class body after a nested class definition
has caller identity `<modulePath>` (not `<modulePath>.<OuterTypeName>`). -/
theorem C5_amended_class_exit_clears (mp : String) (s : VisitorState) (nm : String)
    (body : List Stmt) :
    (visitStmt mp s (Stmt.classDef nm body)).1.current_class = none
    ∧ (visitStmt mp s (Stmt.classDef nm body)).1.current_method = none
    ∧ callerOf mp (visitStmt mp s (Stmt.classDef nm body)).1 = mp := by
  refine ⟨?_, ?_, ?_⟩ <;> simp [visitStmt, callerOf]

/-- C6: a call whose callee is neither an attribute access on a simple
identifier nor a direct simple identifier yields no label
(`get_callee` returns `None`) and contributes no record of its own:
visiting it only traverses its children. -/
theorem C6_nonsimple_shapes_never_recorded (func : Expr)
    (h : simpleCalleeShape func = false) :
    get_callee func = none ∧
    ∀ mp s args, callEvent mp s func = [] ∧
      visitExpr mp s (Expr.call func args)
        = visitExpr mp s func ++ visitExprList mp s args := by
  have hc : get_callee func = none := by
    match func, h with
    | .name fid, h => simp [simpleCalleeShape] at h
    | .attribute (.name vid) a, h => simp [simpleCalleeShape] at h
    | .attribute (.attribute x y) a, h => rfl
    | .attribute (.subscript x y) a, h => rfl
    | .attribute (.call x y) a, h => rfl
    | .attribute .const a, h => rfl
    | .subscript x y, h => rfl
    | .call x y, h => rfl
    | .const, h => rfl
  refine ⟨hc, fun mp s args => ?_⟩
  have hev : callEvent mp s func = [] := by simp [callEvent, hc]
  exact ⟨hev, by simp [visitExpr, hev]⟩

/-- Witness for C6: the outer callee of `get_handler()()` — itself a
call — is not a simple shape and yields no label. -/
theorem C6_witness :
    simpleCalleeShape (Expr.call (Expr.name "get_handler") []) = false
    ∧ get_callee (Expr.call (Expr.name "get_handler") []) = none :=
  ⟨rfl, (C6_nonsimple_shapes_never_recorded (Expr.call (Expr.name "get_handler") []) rfl).1⟩

/-- C7: a labelled call whose whole bare label names a language built-in
is discarded before any import-table lookup — even when the same name is
bound in the import table — and only its children are traversed. -/
theorem C7_builtin_calls_discarded (mp : String) (s : VisitorState) (func : Expr)
    (l : String) (hl : get_callee func = some l)
    (hb : builtin_modules.contains l = true) :
    callEvent mp s func = [] ∧
    ∀ args, visitExpr mp s (Expr.call func args)
      = visitExpr mp s func ++ visitExprList mp s args := by
  have hev : callEvent mp s func = [] := by
    have hbm : l ∈ builtin_modules := List.elem_iff.mp hb
    simp [callEvent, hl, hbm]
  exact ⟨hev, fun args => by simp [visitExpr, hev]⟩

/-- Witness for C7: a bare `print(...)` in a file whose import table
even binds `print` is still discarded. -/
theorem C7_witness :
    get_callee (Expr.name "print") = some "print"
    ∧ builtin_modules.contains "print" = true
    ∧ callEvent "m" ⟨none, none, [("print", "print")]⟩ (Expr.name "print") = [] :=
  ⟨rfl, rfl,
    (C7_builtin_calls_discarded "m" ⟨none, none, [("print", "print")]⟩
      (Expr.name "print") "print" rfl rfl).1⟩

/-- C8: a plain import binds the declared name to itself, an
import-from binds the declared name to `<source>.<name>` (in both cases
the key is the declared name, whatever the rename clause says); a later
binding with the same key overwrites the earlier one in place
(last-wins), and the keys of the table built by any traversal are
distinct. -/
theorem C8_import_table (s : VisitorState) (mp module nm : String)
    (asn : Option String) (t : List (String × String)) (k v : String) (k' : String)
    (m : List Stmt) :
    lookupAssoc ((visitStmt mp s (Stmt.importStmt [⟨nm, asn⟩])).1.importsMap) nm
        = some nm
    ∧ lookupAssoc ((visitStmt mp s (Stmt.importFromStmt module [⟨nm, asn⟩])).1.importsMap) nm
        = some (module ++ "." ++ nm)
    ∧ lookupAssoc (updateAssoc t k v) k' = (if k' = k then some v else lookupAssoc t k')
    ∧ (keysOf ((visitStmtList mp initialState m).1.importsMap)).Nodup := by
  refine ⟨?_, ?_, lookupAssoc_updateAssoc t k v k',
    nodup_imports_visitStmtList m mp initialState (by simp [initialState, keysOf])⟩
  · simp [visitStmt, lookupAssoc_updateAssoc]
  · simp [visitStmt, lookupAssoc_updateAssoc]

/-- C9: extraction is a deterministic function of the input file list
and configuration — two runs over the same fixed file set yield the
same graph, in particular the same set of (caller, callee, count)
triples. -/
theorem C9_deterministic (root : String) (files : List PyFile) (ci1 ci2 : CallInfo)
    (h1 : run_extraction root files = Except.ok ci1)
    (h2 : run_extraction root files = Except.ok ci2) :
    ci1 = ci2 ∧ ∀ t, t ∈ toTriples ci1 ↔ t ∈ toTriples ci2 := by
  have he : ci1 = ci2 := by
    injection h1.symm.trans h2
  exact ⟨he, fun t => by rw [he]⟩

/-- Witness for C9: two runs over the same concrete one-file set are
equal. -/
theorem C9_witness :
    run_extraction "." [⟨"a.py", some [Stmt.importStmt [⟨"os", none⟩],
      Stmt.exprStmt (Expr.call (Expr.attribute (Expr.name "os") "getcwd") [])]⟩]
      = Except.ok [("a", [("os.getcwd", 1)])]
    ∧ ([("a", [("os.getcwd", 1)])] : CallInfo) = [("a", [("os.getcwd", 1)])] :=
  ⟨rfl, (C9_deterministic "." [⟨"a.py", some [Stmt.importStmt [⟨"os", none⟩],
      Stmt.exprStmt (Expr.call (Expr.attribute (Expr.name "os") "getcwd") [])]⟩]
      [("a", [("os.getcwd", 1)])] [("a", [("os.getcwd", 1)])] rfl rfl).1⟩

/-- C10: after any function definition's body traversal completes the
tracked method context is cleared unconditionally (set to `none`, not
restored to the enclosing method); consequently a call in a class
method's body lexically after a nested function definition is recorded
with caller `<modulePath>.<ClassName>` — here `m.C`, not `m.C.m`. -/
theorem C10_method_context_cleared :
    (∀ mp s nm body, (visitStmt mp s (Stmt.funcDef nm body)).1.current_method = none)
    ∧ run_extraction "." [⟨"m.py", some
        [Stmt.importStmt [⟨"helper", none⟩],
         Stmt.classDef "C"
           [Stmt.funcDef "m"
             [Stmt.funcDef "g" [],
              Stmt.exprStmt (Expr.call (Expr.name "helper") [])]]]⟩]
      = Except.ok [("m.C", [("helper", 1)])] := by
  constructor
  · intro mp s nm body
    by_cases hc : s.current_class.isSome <;> simp [visitStmt, hc]
  · rfl
